import Mathlib

/-!
Shallow embedding of `src/paint_struct_benchmark.cpp` (OpenRCT2 paint-session
sorting benchmark): the bounding-box overlap predicates, the quadrant merge,
and the local reorder pass of `paint_session_arrange`.

Modelling conventions:
* machine integers (`uint8_t`/`uint16_t`/`uint32_t`) become `Nat`; the only
  places where truncation or masking matters in the source
  (`gCurrentRotation & 3`, `quadrantIndex & 0xFFFF`, `&= ~FLAG`) are modelled
  with the same bit masks on `Nat`;
* the intrusive singly linked `next_quadrant_ps` chain becomes a `List`:
  a node's position in the list is its position in the chain, and the C
  pointer rewrites become the corresponding list splices;
* pointers that the algorithm carries but never follows (`attached_ps`,
  `children`, `tileElement`) are kept as opaque `Nat` values.
-/

/-- `struct paint_struct_bound_box`: six `uint16_t` fields. -/
structure paint_struct_bound_box where
  x : Nat
  y : Nat
  z : Nat
  x_end : Nat
  y_end : Nat
  z_end : Nat
deriving DecidableEq, Repr

/-- `struct paint_struct` (minus `next_quadrant_ps`, which is represented by
list structure): all remaining fields of the source struct. -/
structure paint_struct where
  image_id : Nat
  tertiary_colour : Nat
  bounds : paint_struct_bound_box
  x : Nat
  y : Nat
  quadrant_index : Nat
  flags : Nat
  quadrant_flags : Nat
  attached_ps : Nat
  children : Nat
  sprite_type : Nat
  var_29 : Nat
  map_x : Nat
  map_y : Nat
  tileElement : Nat
deriving DecidableEq, Repr

/-- `PAINT_QUADRANT_FLAG_IDENTICAL = (1 << 0)`. -/
def PAINT_QUADRANT_FLAG_IDENTICAL : Nat := 1

/-- `PAINT_QUADRANT_FLAG_BIGGER = (1 << 7)`. -/
def PAINT_QUADRANT_FLAG_BIGGER : Nat := 128

/-- `PAINT_QUADRANT_FLAG_NEXT = (1 << 1)`. -/
def PAINT_QUADRANT_FLAG_NEXT : Nat := 2

/-- `get_current_rotation()`: `gCurrentRotation & 3`, with the global made an
explicit argument. -/
def get_current_rotation (gCurrentRotation : Nat) : Nat :=
  gCurrentRotation &&& 3

/-- The four specializations `check_bounding_box<0..3>` together with the
primary template (which returns `false` for any other rotation argument). -/
def check_bounding_box (rotation : Nat)
    (initialBBox currentBBox : paint_struct_bound_box) : Bool :=
  match rotation with
  | 0 =>
    if initialBBox.z_end ≥ currentBBox.z ∧ initialBBox.y_end ≥ currentBBox.y
        ∧ initialBBox.x_end ≥ currentBBox.x
        ∧ ¬(initialBBox.z < currentBBox.z_end ∧ initialBBox.y < currentBBox.y_end
            ∧ initialBBox.x < currentBBox.x_end) then
      true
    else
      false
  | 1 =>
    if initialBBox.z_end ≥ currentBBox.z ∧ initialBBox.y_end ≥ currentBBox.y
        ∧ initialBBox.x_end < currentBBox.x
        ∧ ¬(initialBBox.z < currentBBox.z_end ∧ initialBBox.y < currentBBox.y_end
            ∧ initialBBox.x ≥ currentBBox.x_end) then
      true
    else
      false
  | 2 =>
    if initialBBox.z_end ≥ currentBBox.z ∧ initialBBox.y_end < currentBBox.y
        ∧ initialBBox.x_end < currentBBox.x
        ∧ ¬(initialBBox.z < currentBBox.z_end ∧ initialBBox.y ≥ currentBBox.y_end
            ∧ initialBBox.x ≥ currentBBox.x_end) then
      true
    else
      false
  | 3 =>
    if initialBBox.z_end ≥ currentBBox.z ∧ initialBBox.y_end < currentBBox.y
        ∧ initialBBox.x_end ≥ currentBBox.x
        ∧ ¬(initialBBox.z < currentBBox.z_end ∧ initialBBox.y ≥ currentBBox.y_end
            ∧ initialBBox.x < currentBBox.x_end) then
      true
    else
      false
  | _ => false

/-- First `do/while` loop of `paint_arrange_structs_helper_rotation`: advance
`ps` from the supplied cursor node (head of the list) until the successor
`ps_next` is null (early return of `ps`, third component `true`) or has
`quadrant_index ≥ quadrantIndex`.  Returns the nodes walked past (the
untouched prefix strictly before `ps_cache`), the remaining chain starting at
`ps` (= `ps_cache` when no early return happened), and the early-return flag.
The empty-list case is unreachable: the helper is always handed the cursor
node itself. -/
def advanceToQuadrant (quadrantIndex : Nat) :
    List paint_struct → List paint_struct × List paint_struct × Bool
  | [] => ([], [], true)
  | [ps] => ([], [ps], true)
  | ps :: psn :: rest =>
    if quadrantIndex > psn.quadrant_index then
      let r := advanceToQuadrant quadrantIndex (psn :: rest)
      (ps :: r.1, r.2.1, r.2.2)
    else
      ([], ps :: psn :: rest, false)

/-- Second `do/while` loop of `paint_arrange_structs_helper_rotation`: walk the
successors of `ps_cache`, overwriting each node's `quadrant_flags` according to
its `quadrant_index` (`> quadrantIndex + 1` ↦ BIGGER, `= quadrantIndex + 1` ↦
NEXT|IDENTICAL, `= quadrantIndex` ↦ flag|IDENTICAL, smaller ↦ left as is), and
stop after the first node whose `quadrant_index` exceeds `quadrantIndex + 1`;
nodes past that point keep their old flags. -/
def markQuadrantFlags (quadrantIndex flag : Nat) :
    List paint_struct → List paint_struct
  | [] => []
  | ps :: rest =>
    let ps' :=
      if ps.quadrant_index > quadrantIndex + 1 then
        { ps with quadrant_flags := PAINT_QUADRANT_FLAG_BIGGER }
      else if ps.quadrant_index = quadrantIndex + 1 then
        { ps with quadrant_flags :=
            PAINT_QUADRANT_FLAG_NEXT ||| PAINT_QUADRANT_FLAG_IDENTICAL }
      else if ps.quadrant_index = quadrantIndex then
        { ps with quadrant_flags := flag ||| PAINT_QUADRANT_FLAG_IDENTICAL }
      else
        ps
    if ps'.quadrant_index ≤ quadrantIndex + 1 then
      ps' :: markQuadrantFlags quadrantIndex flag rest
    else
      ps' :: rest

/-- Inner walk of the outer `while (true)` loop: starting at the current `ps`
(head of the list), advance while the successor exists, is not BIGGER-flagged
and not IDENTICAL-flagged.  `none` means the outer loop returns `ps_cache`;
`some (walked, anchor, pivot, tail)` decomposes the list as
`walked ++ anchor :: pivot :: tail` where `pivot` is the first
IDENTICAL-flagged successor and `anchor` its predecessor (the `ps_temp` the
splices insert after). -/
def findPivot :
    List paint_struct →
      Option (List paint_struct × paint_struct × paint_struct × List paint_struct)
  | [] => none
  | [_] => none
  | ps :: psn :: rest =>
    if psn.quadrant_flags &&& PAINT_QUADRANT_FLAG_BIGGER ≠ 0 then
      none
    else if psn.quadrant_flags &&& PAINT_QUADRANT_FLAG_IDENTICAL ≠ 0 then
      some ([], ps, psn, rest)
    else
      match findPivot (psn :: rest) with
      | none => none
      | some (w, a, p, t) => some (ps :: w, a, p, t)

/-- Innermost `while (true)` loop (the splice scan): `initialBBox` is the
pivot's bounds; the chain after the anchor is `inserted ++ kept ++ remaining`,
where `kept` ends at the current `ps` (it starts as `[pivot]`) and `remaining`
is still to be scanned.  A node that is BIGGER-flagged (or the chain end)
stops the scan; a node without the NEXT flag is walked past; a NEXT-flagged
node whose bounds satisfy `check_bounding_box` is spliced out and re-inserted
directly behind the anchor (`ps_temp->next_quadrant_ps = ps_next`), i.e. at
the front of `inserted`, after which the scan resumes at the old `ps`. -/
def spliceLoop (rotation : Nat) (initialBBox : paint_struct_bound_box) :
    List paint_struct → List paint_struct → List paint_struct →
      List paint_struct × List paint_struct × List paint_struct
  | inserted, kept, [] => (inserted, kept, [])
  | inserted, kept, psn :: t =>
    if psn.quadrant_flags &&& PAINT_QUADRANT_FLAG_BIGGER ≠ 0 then
      (inserted, kept, psn :: t)
    else if psn.quadrant_flags &&& PAINT_QUADRANT_FLAG_NEXT = 0 then
      spliceLoop rotation initialBBox inserted (kept ++ [psn]) t
    else if check_bounding_box rotation initialBBox psn.bounds then
      spliceLoop rotation initialBBox (psn :: inserted) kept t
    else
      spliceLoop rotation initialBBox inserted (kept ++ [psn]) t

/-- Number of IDENTICAL-flagged nodes in a chain segment: each outer-loop
iteration of the reorder pass clears exactly one such marker, so this bounds
the number of outer iterations. -/
def countIdentical (l : List paint_struct) : Nat :=
  l.countP fun p => p.quadrant_flags &&& PAINT_QUADRANT_FLAG_IDENTICAL ≠ 0

/-- Outer `while (true)` loop of `paint_arrange_structs_helper_rotation`,
indexed by fuel (`none` = fuel ran out; the sufficiency of
`countIdentical cur + 1` is proved below).  `pre ++ cur` is the chain from
`ps_cache`; `cur` starts at the current `ps`.  Each iteration looks for the
next IDENTICAL pivot, clears its IDENTICAL bit (`&= ~PAINT_QUADRANT_FLAG_IDENTICAL`,
i.e. `&&& 254` on a byte), runs the splice scan with the pivot's bounds, and
restarts from the anchor (`ps = ps_temp`). -/
def reorderLoop (rotation : Nat) :
    Nat → List paint_struct → List paint_struct → Option (List paint_struct)
  | 0, _, _ => none
  | fuel + 1, pre, cur =>
    match findPivot cur with
    | none => some (pre ++ cur)
    | some (walked, anchor, pivot, tail) =>
      let pivot' := { pivot with quadrant_flags := pivot.quadrant_flags &&& 254 }
      let r := spliceLoop rotation pivot'.bounds [] [pivot'] tail
      reorderLoop rotation fuel (pre ++ walked) (anchor :: (r.1 ++ r.2.1 ++ r.2.2))

/-- The outer reorder loop run to completion with the provably sufficient fuel
`countIdentical cur + 1`; the `getD` default is dead code (see the fuel
sufficiency theorem). -/
def reorderLoopFull (rotation : Nat) (pre cur : List paint_struct) :
    List paint_struct :=
  (reorderLoop rotation (countIdentical cur + 1) pre cur).getD (pre ++ cur)

/-- `paint_arrange_structs_helper_rotation<rotation>(ps_next, quadrantIndex, flag)`
on the chain `l` whose head is the `ps_next` argument.  Returns the pair of
(untouched prefix strictly before the returned cursor, chain from the returned
cursor): the C function returns a pointer into the (mutated) chain, and every
mutation happens at or after that cursor. -/
def paint_arrange_structs_helper_rotation (rotation quadrantIndex flag : Nat)
    (l : List paint_struct) : List paint_struct × List paint_struct :=
  match advanceToQuadrant quadrantIndex l with
  | (pre, suf, true) => (pre, suf)
  | (pre, suf, false) =>
    match suf with
    | [] => (pre, [])
    | cache :: rest =>
      let rest' := markQuadrantFlags quadrantIndex flag rest
      (pre, reorderLoopFull rotation [] (cache :: rest'))

/-- `paint_arrange_structs_helper`: the `switch (rotation)` dispatch; the
fall-through for rotations outside `{0,1,2,3}` returns `nullptr`, modelled as
`none`. -/
def paint_arrange_structs_helper (rotation quadrantIndex flag : Nat)
    (l : List paint_struct) : Option (List paint_struct × List paint_struct) :=
  match rotation with
  | 0 => some (paint_arrange_structs_helper_rotation 0 quadrantIndex flag l)
  | 1 => some (paint_arrange_structs_helper_rotation 1 quadrantIndex flag l)
  | 2 => some (paint_arrange_structs_helper_rotation 2 quadrantIndex flag l)
  | 3 => some (paint_arrange_structs_helper_rotation 3 quadrantIndex flag l)
  | _ => none

/-- `MAX_PAINT_QUADRANTS`. -/
def MAX_PAINT_QUADRANTS : Nat := 512

/-- `UINT32_MAX`, the empty sentinel of `QuadrantBackIndex`. -/
def UINT32_MAX : Nat := 4294967295

/-- `struct paint_session`, restricted to the fields the arrange code reads
(the comment in the source marks exactly these as "needed"): the quadrant
bucket heads (each bucket already a linked list, here a `List`), the sentinel
head node, and the lowest/highest occupied bucket indices. -/
structure paint_session where
  Quadrants : Nat → List paint_struct
  PaintHead : paint_struct
  QuadrantBackIndex : Nat
  QuadrantFrontIndex : Nat

/-- Body of the quadrant-merge `do/while` loop of `paint_session_arrange`,
indexed by the number of iterations still to run after the current one: the
loop runs once at the start bucket and then continues while
`++quadrantIndex ≤ front`, i.e. exactly `front - start` further times.  Each
iteration splices the bucket's list onto the chain (an empty bucket
contributes nothing). -/
def mergeQuadrantsFrom (quadrants : Nat → List paint_struct) :
    Nat → Nat → List paint_struct
  | 0, quadrantIndex => quadrants quadrantIndex
  | steps + 1, quadrantIndex =>
    quadrants quadrantIndex ++ mergeQuadrantsFrom quadrants steps (quadrantIndex + 1)

/-- Quadrant-merge `do/while` loop of `paint_session_arrange`, run from bucket
`quadrantIndex` while `++quadrantIndex ≤ front` (so `front - quadrantIndex`
iterations follow the mandatory first one). -/
def mergeQuadrants (quadrants : Nat → List paint_struct) (front : Nat)
    (quadrantIndex : Nat) : List paint_struct :=
  mergeQuadrantsFrom quadrants (front - quadrantIndex) quadrantIndex

/-- Body of the `while (++quadrantIndex < session->QuadrantFrontIndex)` loop
of `paint_session_arrange`, indexed by the number of iterations still to run
(`front - quadrantIndex`, since the loop tests `quadrantIndex < front`):
repeatedly hand the chain from the current `ps_cache` to the helper,
accumulating the untouched prefixes.  The `none` branch of the dispatch is
unreachable here because the rotation was masked with `& 3`. -/
def arrangeLoopGo (rotation : Nat) :
    Nat → Nat → List paint_struct × List paint_struct →
      List paint_struct × List paint_struct
  | 0, _, acc => acc
  | steps + 1, quadrantIndex, acc =>
    match paint_arrange_structs_helper rotation (quadrantIndex &&& 65535) 0 acc.2 with
    | none => acc
    | some (p, c) => arrangeLoopGo rotation steps (quadrantIndex + 1) (acc.1 ++ p, c)

/-- The reorder-pass driving loop of `paint_session_arrange`: run the helper
once per bucket value `quadrantIndex, quadrantIndex+1, ..., front-1`. -/
def arrangeLoop (rotation front : Nat) (quadrantIndex : Nat)
    (acc : List paint_struct × List paint_struct) :
    List paint_struct × List paint_struct :=
  arrangeLoopGo rotation (front - quadrantIndex) quadrantIndex acc

/-- `paint_session_arrange(session)`, with the global `gCurrentRotation` made
an explicit argument.  Returns the final chain anchored at the sentinel head
(`PaintHead` first; its `next_quadrant_ps` reset is the fact that the returned
list continues past it).  The `none` branch is unreachable (rotation is
masked to `{0,1,2,3}`). -/
def paint_session_arrange (gCurrentRotation : Nat) (s : paint_session) :
    List paint_struct :=
  let rotation := get_current_rotation gCurrentRotation
  if s.QuadrantBackIndex = UINT32_MAX then
    [s.PaintHead]
  else
    let chain := s.PaintHead ::
      mergeQuadrants s.Quadrants s.QuadrantFrontIndex s.QuadrantBackIndex
    match paint_arrange_structs_helper rotation (s.QuadrantBackIndex &&& 65535)
        PAINT_QUADRANT_FLAG_NEXT chain with
    | none => []
    | some (pre, cache) =>
      let r := arrangeLoop rotation s.QuadrantFrontIndex
        (s.QuadrantBackIndex + 1) (pre, cache)
      r.1 ++ r.2

/-- A primitive with its transient `quadrant_flags` scratch byte zeroed: the
projection under which the arrange pass preserves every node (§3 of the spec
calls the flags reorder-pass-private scratch). -/
def clearQuadrantFlags (p : paint_struct) : paint_struct :=
  { p with quadrant_flags := 0 }

/-- The concatenation of the per-bucket lists from `back` to `front` in
ascending bucket order, written directly from the spec's words for the
Quadrant Merge contract (spec §4.3): one chain visiting every bucket's
primitives, buckets in strictly ascending order, primitives within a bucket
in their pre-existing order. -/
def spec_merged_concat (quadrants : Nat → List paint_struct)
    (back front : Nat) : List paint_struct :=
  (List.range (front + 1 - back)).flatMap fun i => quadrants (back + i)

/-- A drawable primitive with the given image id, bucket number and bounds;
all payload fields zero, `quadrant_flags` reset to zero as the spec requires
of inputs. -/
def examplePrim (id quadrant bb0 : Nat) (bb : paint_struct_bound_box) :
    paint_struct :=
  { image_id := id, tertiary_colour := bb0, bounds := bb, x := 0, y := 0,
    quadrant_index := quadrant, flags := 0, quadrant_flags := 0,
    attached_ps := 0, children := 0, sprite_type := 0, var_29 := 0,
    map_x := 0, map_y := 0, tileElement := 0 }

/-- The sentinel head node used by the example sessions. -/
def exampleHead : paint_struct := examplePrim 0 0 0 ⟨0, 0, 0, 0, 0, 0⟩

/-- Bounds `(0,0,0,4,4,4)` of primitive A in the spec's
two-overlapping-adjacent-buckets scenario. -/
def boxA : paint_struct_bound_box := ⟨0, 0, 0, 4, 4, 4⟩

/-- Bounds `(1,1,1,3,3,3)` of primitive B (spatially inside A) in the same
scenario. -/
def boxB : paint_struct_bound_box := ⟨1, 1, 1, 3, 3, 3⟩

/-- Bounds of an unrelated far-away bucket-6 primitive C for the same
scenario. -/
def boxC : paint_struct_bound_box := ⟨100, 100, 100, 101, 101, 101⟩

/-- The spec's two-overlapping-adjacent-buckets scenario: bucket 5 holds A
(image 1), bucket 6 holds B (image 2) and the unrelated C (image 3). -/
def sessionTwoBuckets : paint_session :=
  { Quadrants := fun b =>
      if b = 5 then [examplePrim 1 5 0 boxA]
      else if b = 6 then [examplePrim 2 6 0 boxB, examplePrim 3 6 0 boxC]
      else [],
    PaintHead := exampleHead, QuadrantBackIndex := 5, QuadrantFrontIndex := 6 }

/-- A degenerate point bounding box at coordinate `v` on all axes. -/
def pointBox (v : Nat) : paint_struct_bound_box := ⟨v, v, v, v, v, v⟩

/-- Three occupied buckets 0,1,2 with one primitive each (images 10,11,12):
the bucket-1 and bucket-2 point boxes sit at the origin, the bucket-0 box at
coordinate 1, so under rotation 0 each earlier pivot overlaps its successor
bucket and the stale NEXT marker lets the bucket-2 primitive be pulled in
front of the bucket-0 one. -/
def sessionThreeBuckets : paint_session :=
  { Quadrants := fun b =>
      if b = 0 then [examplePrim 10 0 0 (pointBox 1)]
      else if b = 1 then [examplePrim 11 1 0 (pointBox 0)]
      else if b = 2 then [examplePrim 12 2 0 (pointBox 0)]
      else [],
    PaintHead := exampleHead, QuadrantBackIndex := 0, QuadrantFrontIndex := 2 }

/-- A single occupied bucket 0 holding one primitive (image 7). -/
def sessionOneBucket : paint_session :=
  { Quadrants := fun b => if b = 0 then [examplePrim 7 0 0 (pointBox 0)] else [],
    PaintHead := exampleHead, QuadrantBackIndex := 0, QuadrantFrontIndex := 0 }

/-- A session whose `QuadrantBackIndex` is the empty sentinel. -/
def sessionEmptyInput : paint_session :=
  { Quadrants := fun _ => [], PaintHead := exampleHead,
    QuadrantBackIndex := UINT32_MAX, QuadrantFrontIndex := 0 }

/-- The `initial` box of the spec's rotation-sensitivity test. -/
def boxInitC7 : paint_struct_bound_box := ⟨0, 0, 0, 10, 10, 10⟩

/-- The `current` box of the spec's rotation-sensitivity test. -/
def boxCurC7 : paint_struct_bound_box := ⟨5, 5, 5, 15, 15, 15⟩

/-- The `current` box with its `x` moved from 5 to 11: the smallest change to
the spec's pair that actually makes two rotations disagree. -/
def boxCurC7x : paint_struct_bound_box := ⟨11, 5, 5, 15, 15, 15⟩

set_option maxRecDepth 40000

/-- C1: for every pair of bounding boxes and every rotation in {0,1,2,3},
`check_bounding_box` returns true iff the rotation-specific conjunction holds:
`initial.z_end ≥ current.z`, the rotation's y-condition (`≥` for rotations
0,1; `<` for 2,3), the rotation's x-condition (`≥` for rotations 0,3; `<` for
1,2), and the negation of the full-containment exclusion whose three strict
terms are the direction-matched complements for that rotation. -/
theorem c1_check_bounding_box_rotation_conditions
    (i c : paint_struct_bound_box) :
    (check_bounding_box 0 i c = true ↔
      (i.z_end ≥ c.z ∧ i.y_end ≥ c.y ∧ i.x_end ≥ c.x ∧
        ¬(i.z < c.z_end ∧ i.y < c.y_end ∧ i.x < c.x_end))) ∧
    (check_bounding_box 1 i c = true ↔
      (i.z_end ≥ c.z ∧ i.y_end ≥ c.y ∧ i.x_end < c.x ∧
        ¬(i.z < c.z_end ∧ i.y < c.y_end ∧ i.x ≥ c.x_end))) ∧
    (check_bounding_box 2 i c = true ↔
      (i.z_end ≥ c.z ∧ i.y_end < c.y ∧ i.x_end < c.x ∧
        ¬(i.z < c.z_end ∧ i.y ≥ c.y_end ∧ i.x ≥ c.x_end))) ∧
    (check_bounding_box 3 i c = true ↔
      (i.z_end ≥ c.z ∧ i.y_end < c.y ∧ i.x_end ≥ c.x ∧
        ¬(i.z < c.z_end ∧ i.y ≥ c.y_end ∧ i.x < c.x_end))) := by
  refine ⟨?_, ?_, ?_, ?_⟩ <;>
    · simp only [check_bounding_box]
      split <;> simp_all

/-- C6 counterexample: at the spec's own scenario boxes — A with bounds
`(0,0,0,4,4,4)` as `initial`, B with bounds `(1,1,1,3,3,3)` as `current` —
`check_bounding_box<0>` evaluates to `false`, not `true` as claimed: the
negated full-containment exclusion fires because A's origin is strictly below
B's far corner on all three axes. -/
theorem c6_predicate_counterexample : check_bounding_box 0 boxA boxB = false := by
  decide

/-- C6 amended: in the two-overlapping-adjacent-buckets scenario the rotation-0
predicate on (A, B) evaluates to `false`, so no splice occurs: after
`paint_session_arrange` the chain keeps the merge order — sentinel, A, B, C —
with B immediately after A and still ahead of the unrelated bucket-6
primitive C that was scanned after it. -/
theorem c6_amended_two_bucket_scenario :
    check_bounding_box 0 boxA boxB = false ∧
    (paint_session_arrange 0 sessionTwoBuckets).map paint_struct.image_id =
      [0, 1, 2, 3] ∧
    (paint_session_arrange 0 sessionTwoBuckets).tail.map
      paint_struct.quadrant_index = [5, 6, 6] := by
  refine ⟨by decide, by decide, by decide⟩

/-- C7 counterexample: on the spec's box pair `initial=(0,0,0,10,10,10)`,
`current=(5,5,5,15,15,15)` all four rotation predicates return `false` (for
rotation 0 the containment exclusion fires; rotations 1–3 fail their flipped
x/y conditions), so no two distinct rotations in {0,1,2,3} differ there. -/
theorem c7_rotation_insensitive_counterexample :
    check_bounding_box 0 boxInitC7 boxCurC7 = false ∧
    check_bounding_box 1 boxInitC7 boxCurC7 = false ∧
    check_bounding_box 2 boxInitC7 boxCurC7 = false ∧
    check_bounding_box 3 boxInitC7 boxCurC7 = false ∧
    ¬ ∃ r1 r2, r1 < 4 ∧ r2 < 4 ∧ r1 ≠ r2 ∧
      check_bounding_box r1 boxInitC7 boxCurC7 ≠
        check_bounding_box r2 boxInitC7 boxCurC7 := by
  refine ⟨by decide, by decide, by decide, by decide, ?_⟩
  rintro ⟨r1, r2, h1, h2, -, hne⟩
  interval_cases r1 <;> interval_cases r2 <;> exact hne (by decide)

/-- C7 amended: moving the current box's `x` from 5 to 11 — the pair
`initial=(0,0,0,10,10,10)`, `current=(11,5,5,15,15,15)` — makes two distinct
rotations disagree: rotation 0 returns `false` and rotation 1 returns
`true`. -/
theorem c7_amended_rotation_sensitivity :
    check_bounding_box 0 boxInitC7 boxCurC7x = false ∧
    check_bounding_box 1 boxInitC7 boxCurC7x = true ∧
    ∃ r1 r2, r1 < 4 ∧ r2 < 4 ∧ r1 ≠ r2 ∧
      check_bounding_box r1 boxInitC7 boxCurC7x ≠
        check_bounding_box r2 boxInitC7 boxCurC7x := by
  exact ⟨by decide, by decide, 0, 1, by decide, by decide, by decide, by decide⟩

/-- C9: if the session's `QuadrantBackIndex` is the empty sentinel
`UINT32_MAX`, `paint_session_arrange` only resets the sentinel head's chain
link: the resulting chain is the sentinel alone, containing zero primitives,
and no primitive is touched. -/
theorem c9_empty_input_noop (gCurrentRotation : Nat) (s : paint_session)
    (h : s.QuadrantBackIndex = UINT32_MAX) :
    paint_session_arrange gCurrentRotation s = [s.PaintHead] := by
  simp [paint_session_arrange, h]

/-- C9 witness: the empty-sentinel example session. -/
theorem c9_empty_input_noop_witness :
    sessionEmptyInput.QuadrantBackIndex = UINT32_MAX ∧
    paint_session_arrange 0 sessionEmptyInput = [sessionEmptyInput.PaintHead] :=
  ⟨rfl, c9_empty_input_noop 0 sessionEmptyInput rfl⟩

/-- C5 counterexample: `paint_session_arrange` never fails fast on an
out-of-range rotation — `get_current_rotation` masks the global with `& 3`,
so supplying rotation value 4 behaves exactly as rotation 0: on a concrete
session the two runs are identical, and the run is no rejection/no-op (it
rewrites the primitive's scratch flags). -/
theorem c5_rotation_defaults_counterexample :
    get_current_rotation 4 = 0 ∧
    paint_session_arrange 4 sessionOneBucket =
      paint_session_arrange 0 sessionOneBucket ∧
    (paint_session_arrange 4 sessionOneBucket).map
      (fun p => (p.image_id, p.quadrant_flags)) = [(0, 0), (7, 2)] := by
  refine ⟨by decide, by decide, by decide⟩

/-- C5 amended: the arrangement operation masks the supplied rotation, so any
value `r ≥ 4` silently behaves as `r % 4 ∈ {0,1,2,3}`; only a direct call to
the dispatch `paint_arrange_structs_helper` with rotation outside {0,1,2,3}
fails fast, returning null (`none`) and performing no reordering. -/
theorem c5_amended_rotation_masking :
    (∀ gCurrentRotation s, paint_session_arrange gCurrentRotation s =
      paint_session_arrange (gCurrentRotation % 4) s) ∧
    (∀ rotation quadrantIndex flag l, 4 ≤ rotation →
      paint_arrange_structs_helper rotation quadrantIndex flag l = none) := by
  constructor
  · intro g s
    have hg : get_current_rotation g = get_current_rotation (g % 4) := by
      have h1 := Nat.and_pow_two_sub_one_eq_mod g 2
      have h2 := Nat.and_pow_two_sub_one_eq_mod (g % 4) 2
      norm_num at h1 h2
      simp only [get_current_rotation]
      omega
    simp only [paint_session_arrange, hg]
  · intro rotation quadrantIndex flag l h
    obtain ⟨r, rfl⟩ : ∃ r, rotation = r + 4 := ⟨rotation - 4, by omega⟩
    rfl

/-- C5 witness: the amended statement at rotation value 5 (masked to 1) and a
direct dispatch call at rotation 4. -/
theorem c5_amended_rotation_masking_witness :
    paint_session_arrange 5 sessionOneBucket =
      paint_session_arrange (5 % 4) sessionOneBucket ∧
    4 ≤ 4 ∧ paint_arrange_structs_helper 4 0 0 [] = none :=
  ⟨c5_amended_rotation_masking.1 5 sessionOneBucket, by decide,
    c5_amended_rotation_masking.2 4 0 0 [] (by decide)⟩

/-- Clearing the IDENTICAL bit really clears it: `(n & ~1) & 1 = 0` on a
byte. -/
lemma cleared_and_identical (n : Nat) :
    (n &&& 254) &&& PAINT_QUADRANT_FLAG_IDENTICAL = 0 := by
  rw [PAINT_QUADRANT_FLAG_IDENTICAL, Nat.land_assoc]
  norm_num

/-- `countIdentical` of the empty chain. -/
lemma countIdentical_nil : countIdentical [] = 0 := rfl

/-- `countIdentical` distributes over append. -/
lemma countIdentical_append (l1 l2 : List paint_struct) :
    countIdentical (l1 ++ l2) = countIdentical l1 + countIdentical l2 :=
  List.countP_append _ _ _

/-- `countIdentical` on a cons. -/
lemma countIdentical_cons (p : paint_struct) (l : List paint_struct) :
    countIdentical (p :: l) = countIdentical l +
      (if p.quadrant_flags &&& PAINT_QUADRANT_FLAG_IDENTICAL ≠ 0 then 1 else 0) := by
  simp [countIdentical, List.countP_cons]

/-- A successful `findPivot` decomposes its input and returns an
IDENTICAL-flagged pivot. -/
lemma findPivot_decomp :
    ∀ (l w : List paint_struct) (a p : paint_struct) (t : List paint_struct),
      findPivot l = some (w, a, p, t) →
      l = w ++ a :: p :: t ∧
        p.quadrant_flags &&& PAINT_QUADRANT_FLAG_IDENTICAL ≠ 0 := by
  intro l
  induction l with
  | nil => intro w a p t h; simp [findPivot] at h
  | cons ps rest ih =>
    intro w a p t h
    cases rest with
    | nil => simp [findPivot] at h
    | cons psn rest2 =>
      simp only [findPivot] at h
      by_cases h1 : psn.quadrant_flags &&& PAINT_QUADRANT_FLAG_BIGGER ≠ 0
      · rw [if_pos h1] at h
        exact absurd h (by simp)
      · rw [if_neg h1] at h
        by_cases h2 : psn.quadrant_flags &&& PAINT_QUADRANT_FLAG_IDENTICAL ≠ 0
        · rw [if_pos h2] at h
          injection h with h3
          simp only [Prod.mk.injEq] at h3
          obtain ⟨hw, ha, hp, ht⟩ := h3
          subst hw ha hp ht
          exact ⟨rfl, h2⟩
        · rw [if_neg h2] at h
          cases heq : findPivot (psn :: rest2) with
          | none => rw [heq] at h; exact absurd h (by simp)
          | some q =>
            obtain ⟨w2, a2, p2, t2⟩ := q
            rw [heq] at h
            injection h with h3
            simp only [Prod.mk.injEq] at h3
            obtain ⟨hw, ha, hp, ht⟩ := h3
            obtain ⟨hl, hflag⟩ := ih w2 a2 p2 t2 heq
            subst hw ha hp ht
            rw [List.cons_append, ← hl]
            exact ⟨rfl, hflag⟩

/-- The splice scan permutes the chain segment after the anchor: removed
nodes are re-inserted, nothing is created or lost and no node is modified. -/
lemma spliceLoop_append_perm (rotation : Nat) (bb : paint_struct_bound_box) :
    ∀ (rem ins kept : List paint_struct),
      List.Perm
        ((spliceLoop rotation bb ins kept rem).1 ++
          (spliceLoop rotation bb ins kept rem).2.1 ++
          (spliceLoop rotation bb ins kept rem).2.2)
        (ins ++ kept ++ rem) := by
  intro rem
  induction rem with
  | nil => intro ins kept; simp [spliceLoop]
  | cons psn t ih =>
    intro ins kept
    simp only [spliceLoop]
    split_ifs with h1 h2 h3
    · exact List.Perm.refl _
    · simpa [List.append_assoc] using ih ins (kept ++ [psn])
    · refine (ih (psn :: ins) kept).trans ?_
      simpa [List.append_assoc] using
        (@List.perm_middle _ psn (ins ++ kept) t).symm
    · simpa [List.append_assoc] using ih ins (kept ++ [psn])

/-- The splice scan preserves the IDENTICAL-marker count. -/
lemma countIdentical_spliceResult (rotation : Nat)
    (bb : paint_struct_bound_box) (rem ins kept : List paint_struct) :
    countIdentical
      ((spliceLoop rotation bb ins kept rem).1 ++
        (spliceLoop rotation bb ins kept rem).2.1 ++
        (spliceLoop rotation bb ins kept rem).2.2) =
      countIdentical ins + countIdentical kept + countIdentical rem := by
  have h := (spliceLoop_append_perm rotation bb rem ins kept).countP_eq
    (fun p => p.quadrant_flags &&& PAINT_QUADRANT_FLAG_IDENTICAL ≠ 0)
  simp only [countIdentical, List.countP_append] at h ⊢
  omega

/-- One outer-loop iteration strictly decreases the IDENTICAL-marker count:
the pivot's marker is cleared, and the splice scan neither sets nor clears
any marker. -/
lemma countIdentical_reorderStep (rotation : Nat)
    (bb : paint_struct_bound_box) (w : List paint_struct)
    (a piv p : paint_struct) (t : List paint_struct)
    (hpiv : piv.quadrant_flags &&& PAINT_QUADRANT_FLAG_IDENTICAL = 0)
    (hp : p.quadrant_flags &&& PAINT_QUADRANT_FLAG_IDENTICAL ≠ 0) :
    countIdentical (a :: ((spliceLoop rotation bb [] [piv] t).1 ++
      (spliceLoop rotation bb [] [piv] t).2.1 ++
      (spliceLoop rotation bb [] [piv] t).2.2)) <
      countIdentical (w ++ a :: p :: t) := by
  rw [countIdentical_cons, countIdentical_spliceResult]
  simp only [countIdentical_append, countIdentical_cons, countIdentical_nil]
  rw [if_pos hp,
    if_neg (show ¬piv.quadrant_flags &&& PAINT_QUADRANT_FLAG_IDENTICAL ≠ 0 by
      simp [hpiv])]
  omega

/-- With fuel exceeding the number of IDENTICAL markers, the outer reorder
loop completes. -/
lemma reorderLoop_isSome (rotation : Nat) :
    ∀ (fuel : Nat) (pre cur : List paint_struct),
      countIdentical cur < fuel →
      (reorderLoop rotation fuel pre cur).isSome = true := by
  intro fuel
  induction fuel with
  | zero => intro pre cur h; omega
  | succ f ih =>
    intro pre cur h
    simp only [reorderLoop]
    cases hfp : findPivot cur with
    | none => simp
    | some q =>
      obtain ⟨w, a, p, t⟩ := q
      obtain ⟨hl, hflag⟩ := findPivot_decomp cur w a p t hfp
      refine ih _ _ (lt_of_lt_of_le ?_ (by omega : countIdentical cur ≤ f))
      rw [hl]
      exact countIdentical_reorderStep rotation _ w a _ p t
        (cleared_and_identical _) hflag

/-- The outer reorder loop is fuel-insensitive once the fuel is sufficient. -/
lemma reorderLoop_fuel_congr (rotation : Nat) :
    ∀ (fuel1 fuel2 : Nat) (pre cur : List paint_struct),
      countIdentical cur < fuel1 → countIdentical cur < fuel2 →
      reorderLoop rotation fuel1 pre cur = reorderLoop rotation fuel2 pre cur := by
  intro fuel1
  induction fuel1 with
  | zero => intro fuel2 pre cur h1 h2; omega
  | succ f1 ih =>
    intro fuel2 pre cur h1 h2
    cases fuel2 with
    | zero => omega
    | succ f2 =>
      simp only [reorderLoop]
      cases hfp : findPivot cur with
      | none => rfl
      | some q =>
        obtain ⟨w, a, p, t⟩ := q
        obtain ⟨hl, hflag⟩ := findPivot_decomp cur w a p t hfp
        refine ih f2 _ _
          (lt_of_lt_of_le ?_ (by omega : countIdentical cur ≤ f1))
          (lt_of_lt_of_le ?_ (by omega : countIdentical cur ≤ f2)) <;>
          · rw [hl]
            exact countIdentical_reorderStep rotation _ w a _ p t
              (cleared_and_identical _) hflag

/-- C8: the nested splice loops of the reorder pass always run to completion:
any fuel exceeding the number of IDENTICAL markers in the chain suffices
(each node's marker state regresses at most a bounded number of times — one
IDENTICAL clear per outer iteration), and the completed value is exactly the
`reorderLoopFull` that `paint_arrange_structs_helper_rotation` uses, so the
pass cannot run forever. -/
theorem c8_reorder_pass_terminates (rotation fuel : Nat)
    (pre cur : List paint_struct) (h : countIdentical cur < fuel) :
    reorderLoop rotation fuel pre cur = some (reorderLoopFull rotation pre cur) := by
  have hcongr := reorderLoop_fuel_congr rotation fuel (countIdentical cur + 1)
    pre cur h (Nat.lt_succ_self _)
  have hsome := reorderLoop_isSome rotation (countIdentical cur + 1) pre cur
    (Nat.lt_succ_self _)
  obtain ⟨out, hout⟩ := Option.isSome_iff_exists.mp hsome
  rw [hcongr, hout, reorderLoopFull, hout]
  rfl

/-- C8 witness: the reorder loop completes on a concrete singleton chain. -/
theorem c8_reorder_pass_terminates_witness :
    countIdentical [exampleHead] < 1 ∧
    reorderLoop 0 1 [] [exampleHead] = some (reorderLoopFull 0 [] [exampleHead]) :=
  ⟨by decide, c8_reorder_pass_terminates 0 1 [] [exampleHead] (by decide)⟩

/-- The quadrant-merge loop produces exactly the concatenation of the bucket
lists `start, start+1, ..., start+steps` in ascending bucket order. -/
lemma mergeQuadrantsFrom_eq_flatMap (q : Nat → List paint_struct) :
    ∀ (steps start : Nat),
      mergeQuadrantsFrom q steps start =
        (List.range (steps + 1)).flatMap fun i => q (start + i) := by
  intro steps
  induction steps with
  | zero =>
    intro start
    simp [mergeQuadrantsFrom, List.range_succ]
  | succ s ih =>
    intro start
    conv_rhs => rw [List.range_succ_eq_map, List.flatMap_cons, List.flatMap_map]
    rw [mergeQuadrantsFrom, ih (start + 1)]
    simp only [Nat.add_zero]
    refine congrArg _ (congrArg _ (funext fun i => congrArg q ?_))
    omega

/-- With `back ≤ front`, the merge loop equals the spec-side ascending
concatenation of buckets `back..front`. -/
lemma mergeQuadrants_eq_spec (q : Nat → List paint_struct) (back front : Nat)
    (h : back ≤ front) :
    mergeQuadrants q front back = spec_merged_concat q back front := by
  rw [mergeQuadrants, mergeQuadrantsFrom_eq_flatMap, spec_merged_concat]
  have heq : front - back + 1 = front + 1 - back := by omega
  rw [heq]

/-- Every primitive of the merged chain came from a bucket in the merged
range. -/
lemma mem_mergeQuadrantsFrom (q : Nat → List paint_struct) :
    ∀ (steps start : Nat) (p : paint_struct),
      p ∈ mergeQuadrantsFrom q steps start →
      ∃ b, start ≤ b ∧ b ≤ start + steps ∧ p ∈ q b := by
  intro steps
  induction steps with
  | zero => intro start p h; exact ⟨start, Nat.le_refl _, Nat.le_refl _, h⟩
  | succ s ih =>
    intro start p h
    rw [mergeQuadrantsFrom, List.mem_append] at h
    cases h with
    | inl h => exact ⟨start, Nat.le_refl _, by omega, h⟩
    | inr h =>
      obtain ⟨b, h1, h2, h3⟩ := ih (start + 1) p h
      exact ⟨b, by omega, by omega, h3⟩

/-- If every primitive of bucket `b` carries `quadrant_index = b`, the merged
chain is weakly increasing in `quadrant_index`. -/
lemma mergeQuadrantsFrom_sorted (q : Nat → List paint_struct)
    (hlab : ∀ b p, p ∈ q b → p.quadrant_index = b) :
    ∀ (steps start : Nat),
      List.Pairwise (fun p r => p.quadrant_index ≤ r.quadrant_index)
        (mergeQuadrantsFrom q steps start) := by
  intro steps
  induction steps with
  | zero =>
    intro start
    refine List.pairwise_of_forall_mem_list ?_
    intro a ha b hb
    rw [hlab start a ha, hlab start b hb]
  | succ s ih =>
    intro start
    rw [mergeQuadrantsFrom]
    refine List.pairwise_append.mpr ⟨?_, ih (start + 1), ?_⟩
    · refine List.pairwise_of_forall_mem_list ?_
      intro a ha b hb
      rw [hlab start a ha, hlab start b hb]
    · intro a ha b hb
      obtain ⟨b2, h1, h2, h3⟩ := mem_mergeQuadrantsFrom q s (start + 1) b hb
      rw [hlab start a ha, hlab b2 b h3]
      omega

/-- C3: for a session whose lowest occupied bucket is not the empty sentinel,
the chain built by the quadrant-merge phase alone is exactly the
concatenation of the per-bucket lists from the lowest to the highest occupied
bucket, in ascending bucket order, preserving each bucket's internal order;
consequently, if every primitive in bucket `b` carries `quadrant_index = b`,
the `quadrant_index` values along the merged chain are weakly increasing. -/
theorem c3_quadrant_merge_concatenation (s : paint_session)
    (_hback : s.QuadrantBackIndex ≠ UINT32_MAX)
    (hbf : s.QuadrantBackIndex ≤ s.QuadrantFrontIndex) :
    mergeQuadrants s.Quadrants s.QuadrantFrontIndex s.QuadrantBackIndex =
      spec_merged_concat s.Quadrants s.QuadrantBackIndex s.QuadrantFrontIndex ∧
    ((∀ b p, p ∈ s.Quadrants b → p.quadrant_index = b) →
      List.Pairwise (· ≤ ·)
        ((mergeQuadrants s.Quadrants s.QuadrantFrontIndex
          s.QuadrantBackIndex).map paint_struct.quadrant_index)) := by
  constructor
  · exact mergeQuadrants_eq_spec _ _ _ hbf
  · intro hlab
    rw [List.pairwise_map]
    exact mergeQuadrantsFrom_sorted s.Quadrants hlab _ _

/-- C3 witness: the two-bucket example session. -/
theorem c3_quadrant_merge_concatenation_witness :
    sessionTwoBuckets.QuadrantBackIndex ≠ UINT32_MAX ∧
    sessionTwoBuckets.QuadrantBackIndex ≤ sessionTwoBuckets.QuadrantFrontIndex ∧
    (mergeQuadrants sessionTwoBuckets.Quadrants
        sessionTwoBuckets.QuadrantFrontIndex sessionTwoBuckets.QuadrantBackIndex =
      spec_merged_concat sessionTwoBuckets.Quadrants
        sessionTwoBuckets.QuadrantBackIndex sessionTwoBuckets.QuadrantFrontIndex ∧
    ((∀ b p, p ∈ sessionTwoBuckets.Quadrants b → p.quadrant_index = b) →
      List.Pairwise (· ≤ ·)
        ((mergeQuadrants sessionTwoBuckets.Quadrants
          sessionTwoBuckets.QuadrantFrontIndex
          sessionTwoBuckets.QuadrantBackIndex).map paint_struct.quadrant_index))) :=
  ⟨by decide, by decide,
    c3_quadrant_merge_concatenation sessionTwoBuckets (by decide) (by decide)⟩

/-- Rewriting `quadrant_flags` is invisible under `clearQuadrantFlags`. -/
lemma clearQuadrantFlags_update (p : paint_struct) (n : Nat) :
    clearQuadrantFlags { p with quadrant_flags := n } = clearQuadrantFlags p :=
  rfl

/-- The cursor-advance walk splits the chain without modifying it. -/
lemma advanceToQuadrant_append (quadrantIndex : Nat) :
    ∀ l : List paint_struct,
      (advanceToQuadrant quadrantIndex l).1 ++
        (advanceToQuadrant quadrantIndex l).2.1 = l := by
  intro l
  induction l with
  | nil => rfl
  | cons ps rest ih =>
    cases rest with
    | nil => rfl
    | cons psn rest2 =>
      simp only [advanceToQuadrant]
      split_ifs with h
      · simp only [List.cons_append, ih]
      · rfl

/-- The marking walk rewrites only `quadrant_flags`. -/
lemma markQuadrantFlags_map_clear (quadrantIndex flag : Nat) :
    ∀ l : List paint_struct,
      (markQuadrantFlags quadrantIndex flag l).map clearQuadrantFlags =
        l.map clearQuadrantFlags := by
  intro l
  induction l with
  | nil => rfl
  | cons ps rest ih =>
    simp only [markQuadrantFlags]
    split_ifs <;> simp [clearQuadrantFlags, ih]

/-- One outer reorder iteration permutes the chain and touches only the
pivot's `quadrant_flags`. -/
lemma reorderStep_perm (rotation : Nat) (bb : paint_struct_bound_box)
    (pre w : List paint_struct) (a piv p : paint_struct)
    (t : List paint_struct)
    (hclear : clearQuadrantFlags piv = clearQuadrantFlags p) :
    List.Perm
      (((pre ++ w) ++ a :: ((spliceLoop rotation bb [] [piv] t).1 ++
        (spliceLoop rotation bb [] [piv] t).2.1 ++
        (spliceLoop rotation bb [] [piv] t).2.2)).map clearQuadrantFlags)
      ((pre ++ (w ++ a :: p :: t)).map clearQuadrantFlags) := by
  have hsp := spliceLoop_append_perm rotation bb t [] [piv]
  have h1 := (hsp.cons a).map clearQuadrantFlags
  have h2 : (a :: ([] ++ [piv] ++ t)).map clearQuadrantFlags =
      (a :: p :: t).map clearQuadrantFlags := by
    simp [hclear]
  have h3 := h2 ▸ h1
  simp only [List.map_append, List.map_cons, List.append_assoc] at h3 ⊢
  exact (h3.append_left _).append_left _

/-- A completed outer reorder loop permutes the chain from the cursor and
modifies nodes only in their `quadrant_flags`. -/
lemma reorderLoop_perm (rotation : Nat) :
    ∀ (fuel : Nat) (pre cur out : List paint_struct),
      reorderLoop rotation fuel pre cur = some out →
      List.Perm (out.map clearQuadrantFlags)
        ((pre ++ cur).map clearQuadrantFlags) := by
  intro fuel
  induction fuel with
  | zero => intro pre cur out h; simp [reorderLoop] at h
  | succ f ih =>
    intro pre cur out h
    simp only [reorderLoop] at h
    cases hfp : findPivot cur with
    | none =>
      rw [hfp] at h
      injection h with h2
      rw [← h2]
    | some q =>
      obtain ⟨w, a, p, t⟩ := q
      rw [hfp] at h
      obtain ⟨hl, hflag⟩ := findPivot_decomp cur w a p t hfp
      subst hl
      exact (ih _ _ _ h).trans
        (reorderStep_perm rotation _ pre w a _ p t rfl)

/-- Heads of two chains that agree up to a common cons point. -/
lemma head_append_cons_eq (l : List paint_struct) (a : paint_struct)
    (t1 t2 : List paint_struct) :
    (l ++ a :: t1).head? = (l ++ a :: t2).head? := by
  cases l <;> rfl

/-- A completed outer reorder loop never moves the cursor node. -/
lemma reorderLoop_head (rotation : Nat) :
    ∀ (fuel : Nat) (pre cur out : List paint_struct),
      reorderLoop rotation fuel pre cur = some out →
      out.head? = (pre ++ cur).head? := by
  intro fuel
  induction fuel with
  | zero => intro pre cur out h; simp [reorderLoop] at h
  | succ f ih =>
    intro pre cur out h
    simp only [reorderLoop] at h
    cases hfp : findPivot cur with
    | none =>
      rw [hfp] at h
      injection h with h2
      rw [← h2]
    | some q =>
      obtain ⟨w, a, p, t⟩ := q
      rw [hfp] at h
      obtain ⟨hl, hflag⟩ := findPivot_decomp cur w a p t hfp
      subst hl
      rw [ih _ _ _ h, ← List.append_assoc]
      exact head_append_cons_eq (pre ++ w) a _ _

/-- `reorderLoopFull` permutes the chain from the cursor, modifying only
`quadrant_flags`. -/
lemma reorderLoopFull_perm (rotation : Nat) (pre cur : List paint_struct) :
    List.Perm ((reorderLoopFull rotation pre cur).map clearQuadrantFlags)
      ((pre ++ cur).map clearQuadrantFlags) := by
  obtain ⟨out, hout⟩ := Option.isSome_iff_exists.mp
    (reorderLoop_isSome rotation (countIdentical cur + 1) pre cur
      (Nat.lt_succ_self _))
  have h := reorderLoop_perm rotation _ pre cur out hout
  rw [reorderLoopFull, hout]
  exact h

/-- `reorderLoopFull` keeps the cursor node first. -/
lemma reorderLoopFull_head (rotation : Nat) (pre cur : List paint_struct) :
    (reorderLoopFull rotation pre cur).head? = (pre ++ cur).head? := by
  obtain ⟨out, hout⟩ := Option.isSome_iff_exists.mp
    (reorderLoop_isSome rotation (countIdentical cur + 1) pre cur
      (Nat.lt_succ_self _))
  have h := reorderLoop_head rotation _ pre cur out hout
  rw [reorderLoopFull, hout]
  exact h

/-- One helper call splits the chain at the returned cursor, permutes only
the part from the cursor onward, modifies nodes only in `quadrant_flags`,
and never moves the chain's first node. -/
lemma helper_rotation_parts (rotation quadrantIndex flag : Nat)
    (l : List paint_struct) :
    List.Perm
      (((paint_arrange_structs_helper_rotation rotation quadrantIndex flag l).1 ++
        (paint_arrange_structs_helper_rotation rotation quadrantIndex flag l).2).map
          clearQuadrantFlags)
      (l.map clearQuadrantFlags) ∧
    ((paint_arrange_structs_helper_rotation rotation quadrantIndex flag l).1 ++
      (paint_arrange_structs_helper_rotation rotation quadrantIndex flag l).2).head? =
      l.head? := by
  have hsplit := advanceToQuadrant_append quadrantIndex l
  rcases hadv : advanceToQuadrant quadrantIndex l with ⟨pre, suf, early⟩
  rw [hadv] at hsplit
  simp only at hsplit
  cases early with
  | true =>
    simp only [paint_arrange_structs_helper_rotation, hadv]
    rw [hsplit]
    exact ⟨List.Perm.refl _, rfl⟩
  | false =>
    cases suf with
    | nil =>
      simp only [paint_arrange_structs_helper_rotation, hadv]
      rw [List.append_nil] at hsplit ⊢
      rw [hsplit]
      exact ⟨List.Perm.refl _, rfl⟩
    | cons cache rest =>
      simp only [paint_arrange_structs_helper_rotation, hadv]
      constructor
      · rw [← hsplit, List.map_append, List.map_append]
        refine List.Perm.append_left _ ?_
        refine (reorderLoopFull_perm rotation []
          (cache :: markQuadrantFlags quadrantIndex flag rest)).trans ?_
        simp only [List.nil_append, List.map_cons,
          markQuadrantFlags_map_clear]
        exact List.Perm.refl _
      · rw [← hsplit, List.head?_append, List.head?_append,
          reorderLoopFull_head]
        rfl

/-- For rotations in `{0,1,2,3}` the dispatch selects the corresponding
specialization. -/
lemma helper_dispatch (rotation quadrantIndex flag : Nat)
    (l : List paint_struct) (h : rotation < 4) :
    paint_arrange_structs_helper rotation quadrantIndex flag l =
      some (paint_arrange_structs_helper_rotation rotation quadrantIndex flag l) := by
  interval_cases rotation <;> rfl

/-- The driving loop permutes only from the cursor onward, modifies only
`quadrant_flags`, and keeps the chain's first node first. -/
lemma arrangeLoopGo_invariant (rotation : Nat) (hrot : rotation < 4) :
    ∀ (steps quadrantIndex : Nat)
      (acc : List paint_struct × List paint_struct),
      List.Perm
        (((arrangeLoopGo rotation steps quadrantIndex acc).1 ++
          (arrangeLoopGo rotation steps quadrantIndex acc).2).map
            clearQuadrantFlags)
        ((acc.1 ++ acc.2).map clearQuadrantFlags) ∧
      ((arrangeLoopGo rotation steps quadrantIndex acc).1 ++
        (arrangeLoopGo rotation steps quadrantIndex acc).2).head? =
        (acc.1 ++ acc.2).head? := by
  intro steps
  induction steps with
  | zero => intro quadrantIndex acc; exact ⟨List.Perm.refl _, rfl⟩
  | succ st ih =>
    intro quadrantIndex acc
    rcases hhr : paint_arrange_structs_helper_rotation rotation
      (quadrantIndex &&& 65535) 0 acc.2 with ⟨p1, c1⟩
    simp only [arrangeLoopGo,
      helper_dispatch rotation (quadrantIndex &&& 65535) 0 acc.2 hrot, hhr]
    obtain ⟨hperm, hhead⟩ := ih (quadrantIndex + 1) (acc.1 ++ p1, c1)
    obtain ⟨hp2, hh2⟩ := helper_rotation_parts rotation
      (quadrantIndex &&& 65535) 0 acc.2
    rw [hhr] at hp2 hh2
    simp only at hp2 hh2
    constructor
    · refine hperm.trans ?_
      simp only [List.append_assoc, List.map_append] at hp2 ⊢
      exact hp2.append_left _
    · rw [hhead]
      simp only [List.append_assoc, List.head?_append] at hh2 ⊢
      rw [hh2]

/-- When buckets outside `[back, front]` are empty, the concatenation over
all `MAX_PAINT_QUADRANTS` bucket slots equals the ascending concatenation
over the occupied range. -/
lemma flatMap_range_eq_spec (q : Nat → List paint_struct) (back front : Nat)
    (hbf : back ≤ front) (hf : front < MAX_PAINT_QUADRANTS)
    (hout : ∀ b, b < MAX_PAINT_QUADRANTS →
      (b < back ∨ front < b) → q b = []) :
    (List.range MAX_PAINT_QUADRANTS).flatMap q =
      spec_merged_concat q back front := by
  have hsplit : List.range' 0 back ++ List.range' back (front + 1 - back) ++
      List.range' (front + 1) (MAX_PAINT_QUADRANTS - front - 1) =
      List.range' 0 MAX_PAINT_QUADRANTS := by
    have hA := List.range'_append 0 back (front + 1 - back) 1
    have hB := List.range'_append 0 (front + 1)
      (MAX_PAINT_QUADRANTS - front - 1) 1
    simp only [Nat.one_mul, Nat.zero_add] at hA hB
    have e1 : front + 1 - back + back = front + 1 := by omega
    have e2 : MAX_PAINT_QUADRANTS - front - 1 + (front + 1) =
        MAX_PAINT_QUADRANTS := by
      have h512 : front < MAX_PAINT_QUADRANTS := hf
      omega
    rw [e1] at hA
    rw [e2] at hB
    rw [hA]
    exact hB
  rw [List.range_eq_range', ← hsplit, List.flatMap_append, List.flatMap_append]
  have hnil1 : (List.range' 0 back).flatMap q = [] := by
    rw [List.flatMap_eq_nil_iff]
    intro b hb
    rw [List.mem_range'_1] at hb
    exact hout b (by omega) (Or.inl (by omega))
  have hnil2 : (List.range' (front + 1)
      (MAX_PAINT_QUADRANTS - front - 1)).flatMap q = [] := by
    rw [List.flatMap_eq_nil_iff]
    intro b hb
    rw [List.mem_range'_1] at hb
    exact hout b (by omega) (Or.inr (by omega))
  rw [hnil1, hnil2, List.append_nil, List.nil_append,
    List.range'_eq_map_range, List.flatMap_map, spec_merged_concat]

/-- Shared decomposition of a full `paint_session_arrange` run: under the
spec's preconditions the output chain starts with the untouched sentinel
head, and the primitives after it are — up to rewrites of the transient
`quadrant_flags` byte — a permutation of the contents of all input
buckets. -/
lemma arrange_head_perm (gCurrentRotation : Nat) (s : paint_session)
    (hback : s.QuadrantBackIndex ≠ UINT32_MAX)
    (hbf : s.QuadrantBackIndex ≤ s.QuadrantFrontIndex)
    (hfront : s.QuadrantFrontIndex < MAX_PAINT_QUADRANTS)
    (hout : ∀ b, b < MAX_PAINT_QUADRANTS →
      (b < s.QuadrantBackIndex ∨ s.QuadrantFrontIndex < b) →
      s.Quadrants b = []) :
    ∃ t, paint_session_arrange gCurrentRotation s = s.PaintHead :: t ∧
      List.Perm (t.map clearQuadrantFlags)
        (((List.range MAX_PAINT_QUADRANTS).flatMap s.Quadrants).map
          clearQuadrantFlags) := by
  have hrot4 : get_current_rotation gCurrentRotation < 4 :=
    Nat.lt_succ_of_le Nat.and_le_right
  rcases hhr : paint_arrange_structs_helper_rotation
      (get_current_rotation gCurrentRotation)
      (s.QuadrantBackIndex &&& 65535) PAINT_QUADRANT_FLAG_NEXT
      (s.PaintHead :: mergeQuadrants s.Quadrants s.QuadrantFrontIndex
        s.QuadrantBackIndex) with ⟨p0, c0⟩
  obtain ⟨hp0, hh0⟩ := helper_rotation_parts
    (get_current_rotation gCurrentRotation) (s.QuadrantBackIndex &&& 65535)
    PAINT_QUADRANT_FLAG_NEXT
    (s.PaintHead :: mergeQuadrants s.Quadrants s.QuadrantFrontIndex
      s.QuadrantBackIndex)
  rw [hhr] at hp0 hh0
  simp only at hp0 hh0
  obtain ⟨hperm, hhead⟩ := arrangeLoopGo_invariant
    (get_current_rotation gCurrentRotation) hrot4
    (s.QuadrantFrontIndex - (s.QuadrantBackIndex + 1))
    (s.QuadrantBackIndex + 1) (p0, c0)
  have harr : paint_session_arrange gCurrentRotation s =
      (arrangeLoopGo (get_current_rotation gCurrentRotation)
        (s.QuadrantFrontIndex - (s.QuadrantBackIndex + 1))
        (s.QuadrantBackIndex + 1) (p0, c0)).1 ++
      (arrangeLoopGo (get_current_rotation gCurrentRotation)
        (s.QuadrantFrontIndex - (s.QuadrantBackIndex + 1))
        (s.QuadrantBackIndex + 1) (p0, c0)).2 := by
    rw [paint_session_arrange]
    simp only [if_neg hback,
      helper_dispatch _ _ _ _ hrot4, hhr, arrangeLoop]
  have hfull : List.Perm
      (((arrangeLoopGo (get_current_rotation gCurrentRotation)
          (s.QuadrantFrontIndex - (s.QuadrantBackIndex + 1))
          (s.QuadrantBackIndex + 1) (p0, c0)).1 ++
        (arrangeLoopGo (get_current_rotation gCurrentRotation)
          (s.QuadrantFrontIndex - (s.QuadrantBackIndex + 1))
          (s.QuadrantBackIndex + 1) (p0, c0)).2).map clearQuadrantFlags)
      ((s.PaintHead :: mergeQuadrants s.Quadrants s.QuadrantFrontIndex
        s.QuadrantBackIndex).map clearQuadrantFlags) := by
    simp only at hperm
    exact hperm.trans hp0
  have hheadfull : ((arrangeLoopGo (get_current_rotation gCurrentRotation)
      (s.QuadrantFrontIndex - (s.QuadrantBackIndex + 1))
      (s.QuadrantBackIndex + 1) (p0, c0)).1 ++
      (arrangeLoopGo (get_current_rotation gCurrentRotation)
        (s.QuadrantFrontIndex - (s.QuadrantBackIndex + 1))
        (s.QuadrantBackIndex + 1) (p0, c0)).2).head? = some s.PaintHead := by
    simp only at hhead
    rw [hhead, hh0]
    rfl
  obtain ⟨t, ht⟩ : ∃ t, (arrangeLoopGo (get_current_rotation gCurrentRotation)
      (s.QuadrantFrontIndex - (s.QuadrantBackIndex + 1))
      (s.QuadrantBackIndex + 1) (p0, c0)).1 ++
      (arrangeLoopGo (get_current_rotation gCurrentRotation)
        (s.QuadrantFrontIndex - (s.QuadrantBackIndex + 1))
        (s.QuadrantBackIndex + 1) (p0, c0)).2 = s.PaintHead :: t := by
    cases hq : (arrangeLoopGo (get_current_rotation gCurrentRotation)
        (s.QuadrantFrontIndex - (s.QuadrantBackIndex + 1))
        (s.QuadrantBackIndex + 1) (p0, c0)).1 ++
        (arrangeLoopGo (get_current_rotation gCurrentRotation)
          (s.QuadrantFrontIndex - (s.QuadrantBackIndex + 1))
          (s.QuadrantBackIndex + 1) (p0, c0)).2 with
    | nil => rw [hq] at hheadfull; exact absurd hheadfull (by simp)
    | cons x t2 =>
      rw [hq] at hheadfull
      simp only [List.head?_cons, Option.some.injEq] at hheadfull
      exact ⟨t2, by rw [hheadfull]⟩
  refine ⟨t, by rw [harr, ht], ?_⟩
  rw [ht] at hfull
  simp only [List.map_cons] at hfull
  have htail := hfull.cons_inv
  refine htail.trans ?_
  rw [mergeQuadrants_eq_spec s.Quadrants s.QuadrantBackIndex
    s.QuadrantFrontIndex hbf,
    flatMap_range_eq_spec s.Quadrants s.QuadrantBackIndex
      s.QuadrantFrontIndex hbf hfront hout]

/-- C2: for every session satisfying the preconditions, the chain reachable
from the sentinel head after `paint_session_arrange` contains exactly the
primitives of the input buckets, each exactly once: up to rewrites of the
transient `quadrant_flags` scratch byte, the multiset of primitives in the
output chain equals the multiset across all input buckets — no duplication,
no loss. -/
theorem c2_conservation (gCurrentRotation : Nat) (s : paint_session)
    (hback : s.QuadrantBackIndex ≠ UINT32_MAX)
    (hbf : s.QuadrantBackIndex ≤ s.QuadrantFrontIndex)
    (hfront : s.QuadrantFrontIndex < MAX_PAINT_QUADRANTS)
    (hout : ∀ b, b < MAX_PAINT_QUADRANTS →
      (b < s.QuadrantBackIndex ∨ s.QuadrantFrontIndex < b) →
      s.Quadrants b = []) :
    ∃ t, paint_session_arrange gCurrentRotation s = s.PaintHead :: t ∧
      Multiset.ofList (t.map clearQuadrantFlags) =
        Multiset.ofList
          (((List.range MAX_PAINT_QUADRANTS).flatMap s.Quadrants).map
            clearQuadrantFlags) := by
  obtain ⟨t, ht, hperm⟩ :=
    arrange_head_perm gCurrentRotation s hback hbf hfront hout
  exact ⟨t, ht, Multiset.coe_eq_coe.mpr hperm⟩

/-- C2 witness: the two-bucket example session. -/
theorem c2_conservation_witness :
    sessionTwoBuckets.QuadrantBackIndex ≠ UINT32_MAX ∧
    sessionTwoBuckets.QuadrantBackIndex ≤ sessionTwoBuckets.QuadrantFrontIndex ∧
    sessionTwoBuckets.QuadrantFrontIndex < MAX_PAINT_QUADRANTS ∧
    (∀ b, b < MAX_PAINT_QUADRANTS →
      (b < sessionTwoBuckets.QuadrantBackIndex ∨
        sessionTwoBuckets.QuadrantFrontIndex < b) →
      sessionTwoBuckets.Quadrants b = []) ∧
    ∃ t, paint_session_arrange 0 sessionTwoBuckets =
        sessionTwoBuckets.PaintHead :: t ∧
      Multiset.ofList (t.map clearQuadrantFlags) =
        Multiset.ofList
          (((List.range MAX_PAINT_QUADRANTS).flatMap
            sessionTwoBuckets.Quadrants).map clearQuadrantFlags) :=
  ⟨by decide, by decide, by decide, by decide,
    c2_conservation 0 sessionTwoBuckets (by decide) (by decide) (by decide)
      (by decide)⟩

/-- C10: `paint_session_arrange` writes only the chain links (the order) and
the transient `quadrant_flags` scratch byte: the sentinel head comes through
unchanged at the front, and every primitive in the output chain agrees with
a primitive of the input buckets on every other field — bounds, image and
colour, screen position, `quadrant_index`, attached list, children,
sprite_type, map position and tileElement are untouched. -/
theorem c10_only_links_and_scratch_written (gCurrentRotation : Nat)
    (s : paint_session)
    (hback : s.QuadrantBackIndex ≠ UINT32_MAX)
    (hbf : s.QuadrantBackIndex ≤ s.QuadrantFrontIndex)
    (hfront : s.QuadrantFrontIndex < MAX_PAINT_QUADRANTS)
    (hout : ∀ b, b < MAX_PAINT_QUADRANTS →
      (b < s.QuadrantBackIndex ∨ s.QuadrantFrontIndex < b) →
      s.Quadrants b = []) :
    (paint_session_arrange gCurrentRotation s).head? = some s.PaintHead ∧
    ∀ p ∈ (paint_session_arrange gCurrentRotation s).tail,
      ∃ q ∈ (List.range MAX_PAINT_QUADRANTS).flatMap s.Quadrants,
        clearQuadrantFlags p = clearQuadrantFlags q := by
  obtain ⟨t, ht, hperm⟩ :=
    arrange_head_perm gCurrentRotation s hback hbf hfront hout
  rw [ht]
  refine ⟨rfl, ?_⟩
  intro p hp
  rw [List.tail_cons] at hp
  have h1 : clearQuadrantFlags p ∈ t.map clearQuadrantFlags :=
    List.mem_map_of_mem _ hp
  rw [hperm.mem_iff] at h1
  obtain ⟨q, hq, heq⟩ := List.mem_map.mp h1
  exact ⟨q, hq, heq.symm⟩

/-- C10 witness: the two-bucket example session. -/
theorem c10_only_links_and_scratch_written_witness :
    sessionTwoBuckets.QuadrantBackIndex ≠ UINT32_MAX ∧
    ((paint_session_arrange 0 sessionTwoBuckets).head? =
        some sessionTwoBuckets.PaintHead ∧
      ∀ p ∈ (paint_session_arrange 0 sessionTwoBuckets).tail,
        ∃ q ∈ (List.range MAX_PAINT_QUADRANTS).flatMap
            sessionTwoBuckets.Quadrants,
          clearQuadrantFlags p = clearQuadrantFlags q) :=
  ⟨by decide,
    c10_only_links_and_scratch_written 0 sessionTwoBuckets (by decide)
      (by decide) (by decide) (by decide)⟩

/-- C4 counterexample: a three-bucket session meeting every precondition
(bucket labels correct, scratch flags zeroed, rotation 0) whose final chain
is `[bucket 2, bucket 1, bucket 0]`: the bucket-0 primitive appears after
the bucket-2 primitive, so reordering crossed a non-adjacent bucket
boundary — a stale NEXT marker from the first boundary pass lets the second
pass pull the bucket-2 primitive across. -/
theorem c4_locality_counterexample :
    (∀ b, b < MAX_PAINT_QUADRANTS → ∀ p ∈ sessionThreeBuckets.Quadrants b,
      p.quadrant_index = b ∧ p.quadrant_flags = 0) ∧
    sessionThreeBuckets.QuadrantBackIndex = 0 ∧
    sessionThreeBuckets.QuadrantFrontIndex = 2 ∧
    (paint_session_arrange 0 sessionThreeBuckets).tail.map
      paint_struct.quadrant_index = [2, 1, 0] ∧
    ¬ List.Pairwise (fun p q : paint_struct =>
        p.quadrant_index ≤ q.quadrant_index + 1)
      ((paint_session_arrange 0 sessionThreeBuckets).tail) :=
  ⟨by decide, by decide, by decide, by decide, by decide⟩

/-- C4 amended: the locality bound holds when the occupied range spans at
most two adjacent buckets (`highest ≤ lowest + 1`): then no primitive from
bucket `b` ends up after any primitive from bucket `b + 2` or greater.  With
three or more occupied buckets the claim fails (see the counterexample):
stale NEXT markers let a later boundary pass move a primitive across a
non-adjacent bucket boundary. -/
theorem c4_amended_locality (gCurrentRotation : Nat) (s : paint_session)
    (hback : s.QuadrantBackIndex ≠ UINT32_MAX)
    (hbf : s.QuadrantBackIndex ≤ s.QuadrantFrontIndex)
    (hadj : s.QuadrantFrontIndex ≤ s.QuadrantBackIndex + 1)
    (hfront : s.QuadrantFrontIndex < MAX_PAINT_QUADRANTS)
    (hout : ∀ b, b < MAX_PAINT_QUADRANTS →
      (b < s.QuadrantBackIndex ∨ s.QuadrantFrontIndex < b) →
      s.Quadrants b = [])
    (hlab : ∀ b p, p ∈ s.Quadrants b → p.quadrant_index = b) :
    List.Pairwise (fun p q : paint_struct =>
        p.quadrant_index ≤ q.quadrant_index + 1)
      ((paint_session_arrange gCurrentRotation s).tail) := by
  obtain ⟨t, ht, hperm⟩ :=
    arrange_head_perm gCurrentRotation s hback hbf hfront hout
  rw [ht, List.tail_cons]
  have key : ∀ r ∈ t, s.QuadrantBackIndex ≤ r.quadrant_index ∧
      r.quadrant_index ≤ s.QuadrantFrontIndex := by
    intro r hr
    have h1 : clearQuadrantFlags r ∈ t.map clearQuadrantFlags :=
      List.mem_map_of_mem _ hr
    rw [hperm.mem_iff] at h1
    obtain ⟨q2, hq2, heq⟩ := List.mem_map.mp h1
    obtain ⟨b, hbmem, hq2b⟩ := List.mem_flatMap.mp hq2
    have hbi0 := congrArg paint_struct.quadrant_index heq.symm
    have hbi : r.quadrant_index = q2.quadrant_index := hbi0
    have hqb := hlab b q2 hq2b
    have hbrange : s.QuadrantBackIndex ≤ b ∧ b ≤ s.QuadrantFrontIndex := by
      rcases Nat.lt_or_ge b s.QuadrantBackIndex with hlt | hge
      · refine absurd hq2b ?_
        rw [hout b (List.mem_range.mp hbmem) (Or.inl hlt)]
        exact List.not_mem_nil _
      · rcases Nat.lt_or_ge s.QuadrantFrontIndex b with hgt | hle
        · refine absurd hq2b ?_
          rw [hout b (List.mem_range.mp hbmem) (Or.inr hgt)]
          exact List.not_mem_nil _
        · exact ⟨hge, hle⟩
    rw [hbi, hqb]
    exact hbrange
  refine List.pairwise_of_forall_mem_list ?_
  intro p hp q hq
  have hpb := key p hp
  have hqb := key q hq
  omega

/-- C4 amended witness: the two-adjacent-buckets example session. -/
theorem c4_amended_locality_witness :
    sessionTwoBuckets.QuadrantBackIndex ≠ UINT32_MAX ∧
    sessionTwoBuckets.QuadrantFrontIndex ≤
      sessionTwoBuckets.QuadrantBackIndex + 1 ∧
    List.Pairwise (fun p q : paint_struct =>
        p.quadrant_index ≤ q.quadrant_index + 1)
      ((paint_session_arrange 0 sessionTwoBuckets).tail) :=
  ⟨by decide, by decide,
    c4_amended_locality 0 sessionTwoBuckets (by decide) (by decide)
      (by decide) (by decide) (by decide) (by
        intro b p hp
        by_cases h5 : b = 5
        · subst h5
          simp [sessionTwoBuckets] at hp
          rw [hp]
          rfl
        · by_cases h6 : b = 6
          · subst h6
            simp [sessionTwoBuckets] at hp
            rcases hp with hp | hp <;> (rw [hp]; rfl)
          · simp [sessionTwoBuckets, h5, h6] at hp)⟩
